import Mathlib

/-!
Verification of the storage management plane of `server/handles/storage.go`
(OpenList management handlers): path-scope checks, tenant path rewriting,
the detail aggregation loop, and the reload coordinator. The Go handlers are
shallowly embedded as pure Lean functions; the external collaborators (the
record store, the driver registry, the op layer, the settings store, the
completion channel) are passed in as explicit function arguments, so each
handler's branching logic is translated directly from the source.
-/

namespace OpenList

/-- A storage record (`model.Storage`), restricted to the fields the handlers
in `storage.go` read or write: the store-assigned id, the mount path, the
driver name and the enabled flag. Other fields are opaque configuration the
handlers pass through untouched. -/
structure Storage where
  id : Nat
  mountPath : String
  driver : String
  enabled : Bool
deriving DecidableEq, Repr

/-- Modelled from the spec: `model.User` is an external collaborator (only
its `IsAdmin()` accessor and `BasePath`/`Username` fields are used by
`storage.go`). `isAdmin` stands for the result of `user.IsAdmin()`. -/
structure User where
  username : String
  isAdmin : Bool
  basePath : String
deriving DecidableEq, Repr

/-- Modelled from the spec: `model.StorageDetails` is external, driver-reported
capacity metadata; its fields are opaque to the handlers, so it is modelled as
a single opaque numeric payload. -/
structure StorageDetails where
  payload : Nat
deriving DecidableEq, Repr

/-- The response entity `StorageResp` of `storage.go`: the (possibly
view-rewritten) storage record plus optional mount details. -/
structure StorageResp where
  storage : Storage
  mountDetails : Option StorageDetails
deriving DecidableEq, Repr

/-- Go `strings.HasPrefix s pre`: `pre` is a leading substring of `s`.
Byte-for-byte prefix test, embedded at character level. -/
def goHasPrefix (s pre : String) : Bool :=
  pre.data.isPrefixOf s.data

/-- Go `strings.TrimPrefix s pre`: `s` without the leading `pre` when present,
otherwise `s` unchanged. -/
def goTrimPrefix (s pre : String) : String :=
  if goHasPrefix s pre then ⟨s.data.drop pre.data.length⟩ else s

/-- The backtracking step of Go `path.Clean` (the `out.w > dotdot` case of
`..` handling): with the output buffer kept in reverse (most recently written
character first), pop the final character, then keep popping while the buffer
stays longer than `dotdot` and the character just popped is not `'/'`. -/
def cleanPop : List Char → Nat → List Char
  | [], _ => []
  | c :: rest, dotdot =>
    if dotdot < rest.length ∧ c ≠ '/' then cleanPop rest dotdot else rest

/-- The main scanning loop of Go `path.Clean`, translated case by case:
`rem` is the unread remainder of the input (`path[r:]`), `rooted` records
whether the input began with `'/'`, `dotdot` is the backtracking floor, and
`rbuf` is the output buffer in reverse. `fuel` bounds the recursion; every
iteration consumes at least one input character, so `rem.length` fuel
suffices. -/
def cleanLoop : Nat → List Char → Bool → Nat → List Char → List Char
  | 0, _, _, _, rbuf => rbuf
  | _ + 1, [], _, _, rbuf => rbuf
  | fuel + 1, c :: rest, rooted, dotdot, rbuf =>
    if c = '/' then
      cleanLoop fuel rest rooted dotdot rbuf
    else if c = '.' ∧ (rest.head? = none ∨ rest.head? = some '/') then
      cleanLoop fuel rest rooted dotdot rbuf
    else if c = '.' ∧ rest.head? = some '.' ∧
        (rest.tail.head? = none ∨ rest.tail.head? = some '/') then
      if dotdot < rbuf.length then
        cleanLoop fuel rest.tail rooted dotdot (cleanPop rbuf dotdot)
      else if rooted = false then
        let rbuf1 := if 0 < rbuf.length then '/' :: rbuf else rbuf
        let rbuf2 := '.' :: '.' :: rbuf1
        cleanLoop fuel rest.tail rooted rbuf2.length rbuf2
      else
        cleanLoop fuel rest.tail rooted dotdot rbuf
    else
      let rbuf1 :=
        if (rooted = true ∧ rbuf.length ≠ 1) ∨ (rooted = false ∧ rbuf.length ≠ 0)
        then '/' :: rbuf else rbuf
      let seg := (c :: rest).takeWhile (fun ch => ch ≠ '/')
      cleanLoop fuel ((c :: rest).dropWhile (fun ch => ch ≠ '/')) rooted dotdot
        (seg.reverse ++ rbuf1)

/-- Go `path.Clean` over a character list: empty input yields `"."`; a rooted
input starts the buffer with `'/'` and the scan at index 1; an empty final
buffer yields `"."`. -/
def cleanChars (s : List Char) : List Char :=
  match s with
  | [] => ['.']
  | c :: rest =>
    let rooted := c = '/'
    let rbuf0 : List Char := if rooted then ['/'] else []
    let dotdot0 := if rooted then 1 else 0
    let rem := if rooted then rest else c :: rest
    let rbuf := cleanLoop rem.length rem rooted dotdot0 rbuf0
    if rbuf.length = 0 then ['.'] else rbuf.reverse

/-- Go `path.Clean` on strings. -/
def goClean (s : String) : String :=
  ⟨cleanChars s.data⟩

/-- Go `path.Join e1 e2`: skip leading empty elements, join the rest with
`'/'` and clean the result; all-empty input yields `""`. -/
def goJoin (e1 e2 : String) : String :=
  if e1 ≠ "" then goClean ⟨e1.data ++ '/' :: e2.data⟩
  else if e2 ≠ "" then goClean e2
  else ""

/-- The scope containment test actually used throughout `storage.go`
(spec 4.1 `IsUnderRoot`): a raw `strings.HasPrefix(path, root)` check, as in
`filterStorages`, `CreateStorage`, `UpdateStorage`, `DeleteStorage`,
`DisableStorage`, `EnableStorage` and `GetStorage`. -/
def isUnderRoot (p root : String) : Bool :=
  goHasPrefix p root

/-- Spec 4.1 `ToAbsolute`, as implemented inline in `CreateStorage` and
`UpdateStorage`: keep `p` when it already has prefix `root`, otherwise
`path.Join(root, p)`. -/
def toAbsolute (root p : String) : String :=
  if goHasPrefix p root then p else goJoin root p

/-- The empty-remainder fixup of the tenant view (`if s.MountPath == "" {
s.MountPath = "/" }` in `makeStorageResp` and `GetStorage`). -/
def relFix (p : String) : String :=
  if p = "" then "/" else p

/-- Spec 4.1 `ToRelative`, as implemented inline in `makeStorageResp` and
`GetStorage`: when `root` is a prefix of `p`, strip it and map an empty
remainder to `"/"`; otherwise leave `p` unchanged. -/
def toRelative (root p : String) : String :=
  if goHasPrefix p root then relFix (goTrimPrefix p root) else p

/-- The mount-path rewrite `CreateStorage` and `UpdateStorage` apply to a
non-admin request before the final scope check: if the requested path does
not already carry the caller's `BasePath` prefix, reinterpret it relative
to `BasePath` via `path.Join`. -/
def scopeRewrite (u : User) (mp : String) : String :=
  if goHasPrefix mp u.basePath then mp else goJoin u.basePath mp

/-- The per-record view rewrite at the top of the `makeStorageResp` loop:
for a present, non-admin user whose `BasePath` prefixes the record's
`MountPath`, strip the prefix and render an empty remainder as `"/"`. -/
def rewriteView (user? : Option User) (s : Storage) : Storage :=
  match user? with
  | none => s
  | some u =>
    if u.isAdmin = false ∧ goHasPrefix s.mountPath u.basePath then
      { s with mountPath := relFix (goTrimPrefix s.mountPath u.basePath) }
    else s

/-- The external environment `makeStorageResp` reads: the
`HideStorageDetailsInManagePage` setting, the driver registry
(`op.GetStorageByMountPath`, keyed by mount path, returning an abstract
driver handle), and the `driver.WithDetails` capability type-assertion. -/
structure DetailEnv where
  hide : Bool
  resolve : String → Option Nat
  withDetails : Nat → Bool

/-- The dispatch decision of one `makeStorageResp` loop iteration for an
(already view-rewritten) record: a detail-fetch worker is started when the
setting does not hide details, the driver resolves, and it has the details
capability. -/
def dispatchFlag (env : DetailEnv) (s : Storage) : Bool :=
  if env.hide then false
  else
    match env.resolve s.mountPath with
    | none => false
    | some d => env.withDetails d

/-- The initial response array built by the `makeStorageResp` loop before
any worker reports: each slot holds the view-rewritten record and nil
details. -/
def makeInit (user? : Option User) (storages : List Storage) : List StorageResp :=
  storages.map (fun s => ⟨rewriteView user? s, none⟩)

/-- The indices for which the `makeStorageResp` loop dispatches a
detail-fetch worker; `workerCount` is the length of this list. -/
def dispatchedIdx (env : DetailEnv) (user? : Option User)
    (storages : List Storage) : List Nat :=
  ((storages.map (rewriteView user?)).enum.filter
    (fun p => dispatchFlag env p.2)).map (fun p => p.1)

/-- The mount paths passed to `op.GetStorageByMountPath` by the
`makeStorageResp` loop: none at all when the hide setting is on (the
`continue` precedes the registry call), otherwise every record's rewritten
path, in order. -/
def resolveCalls (env : DetailEnv) (user? : Option User)
    (storages : List Storage) : List String :=
  if env.hide then []
  else (storages.map (rewriteView user?)).map (fun s => s.mountPath)

/-- One channel message `detailWithIndex`: the worker's slot index and its
fetch result (`nil` when the fetch errored). -/
structure DetailMsg where
  idx : Nat
  val : Option StorageDetails
deriving DecidableEq, Repr

/-- Writing one reported result into the response array
(`ret[r.idx].MountDetails = r.val`); an out-of-range index leaves the array
unchanged (workers only carry in-range indices). -/
def setDetails (ret : List StorageResp) (idx : Nat) (v : Option StorageDetails) :
    List StorageResp :=
  match ret[idx]? with
  | none => ret
  | some r => ret.set idx { r with mountDetails := v }

/-- The collection loop of `makeStorageResp`: while `workerCount > 0`,
select the next completion message if one arrives, else the 3-second
timeout fires and zeroes `workerCount`. `ms` is the arrival-ordered list of
messages that get through before a timeout; exhausting it models the
timeout arm. -/
def collect : Nat → List DetailMsg → List StorageResp → List StorageResp
  | 0, _, ret => ret
  | _ + 1, [], ret => ret
  | wc + 1, m :: ms, ret => collect wc ms (setDetails ret m.idx m.val)

/-- `makeStorageResp`: build the initial response array while dispatching
workers, then run the collection loop over the arriving messages `ms`. -/
def makeStorageResp (env : DetailEnv) (user? : Option User)
    (storages : List Storage) (ms : List DetailMsg) : List StorageResp :=
  collect (dispatchedIdx env user? storages).length ms (makeInit user? storages)

/-- `filterStorages`: a missing user context yields an empty page, an admin
sees the page unfiltered, and a non-admin keeps exactly the records whose
`MountPath` has their `BasePath` as a string prefix. -/
def filterStorages (user? : Option User) (storages : List Storage) : List Storage :=
  match user? with
  | none => []
  | some u =>
    if u.isAdmin then storages
    else storages.filter (fun s => goHasPrefix s.mountPath u.basePath)

/-- The `PageResp` body of a successful `ListStorages` response. -/
structure PageResp where
  content : List StorageResp
  total : Nat
deriving DecidableEq, Repr

/-- The success path of `ListStorages`, given the page of records and the
unfiltered total the store returned: the content is the filtered page run
through `makeStorageResp`, while `Total` is passed through unfiltered. -/
def listStorages (user? : Option User) (env : DetailEnv)
    (storages : List Storage) (total : Nat) (ms : List DetailMsg) : PageResp :=
  { content := makeStorageResp env user? (filterStorages user? storages) ms
    total := total }

/-- The observable outcome of `CreateStorage`: success with the assigned id,
or an error response with its HTTP status, message and (for the 500 path)
the id the store handed back alongside its error. -/
inductive CreateResult where
  | success (id : Nat)
  | failure (code : Nat) (msg : String) (id : Option Nat)
deriving DecidableEq, Repr

/-- `CreateStorage`, with the store call `op.CreateStorage` passed in as
`opCreate` (returning the assigned id and an optional error). The second
component is the record handed to the store — `none` means the handler
returned before the store was called. -/
def createStorage (u : User) (req : Storage)
    (opCreate : Storage → Nat × Option String) : CreateResult × Option Storage :=
  if u.isAdmin then
    match opCreate req with
    | (id, none) => (CreateResult.success id, some req)
    | (id, some e) => (CreateResult.failure 500 e (some id), some req)
  else
    let req1 := { req with mountPath := scopeRewrite u req.mountPath }
    if goHasPrefix req1.mountPath u.basePath then
      match opCreate req1 with
      | (id, none) => (CreateResult.success id, some req1)
      | (id, some e) => (CreateResult.failure 500 e (some id), some req1)
    else
      (CreateResult.failure 403
        ("permission denied: you can only mount under " ++ u.basePath) none, none)

/-- The observable outcome of `UpdateStorage`, `DeleteStorage`,
`DisableStorage`, `EnableStorage` and `LoadAllStorages`: an empty success
or an error with status and message. -/
inductive OpResult where
  | success
  | failure (code : Nat) (msg : String)
deriving DecidableEq, Repr

/-- `UpdateStorage`, with the store reads/writes passed in (`getById` is
`db.GetStorageById`, `opUpdate` is `op.UpdateStorage`). The second
component is the record handed to the store's update — `none` means the
store was never called. -/
def updateStorage (u : User) (req : Storage)
    (getById : Nat → Except String Storage)
    (opUpdate : Storage → Option String) : OpResult × Option Storage :=
  if u.isAdmin then
    match opUpdate req with
    | none => (OpResult.success, some req)
    | some e => (OpResult.failure 500 e, some req)
  else
    match getById req.id with
    | Except.error e => (OpResult.failure 500 e, none)
    | Except.ok oldS =>
      if goHasPrefix oldS.mountPath u.basePath then
        let req1 := { req with mountPath := scopeRewrite u req.mountPath }
        if goHasPrefix req1.mountPath u.basePath then
          match opUpdate req1 with
          | none => (OpResult.success, some req1)
          | some e => (OpResult.failure 500 e, some req1)
        else
          (OpResult.failure 403
            ("permission denied: you can only mount under " ++ u.basePath), none)
      else
        (OpResult.failure 403 "permission denied", none)

/-- `DeleteStorage` for an already-parsed id, with `db.GetStorageById` and
`op.DeleteStorageById` passed in. The boolean records whether the
store/driver lifecycle operation was invoked. -/
def deleteStorage (u : User) (id : Nat)
    (getById : Nat → Except String Storage)
    (opDelete : Nat → Option String) : OpResult × Bool :=
  if u.isAdmin then
    match opDelete id with
    | none => (OpResult.success, true)
    | some e => (OpResult.failure 500 e, true)
  else
    match getById id with
    | Except.error _ => (OpResult.failure 403 "permission denied or storage not found", false)
    | Except.ok oldS =>
      if goHasPrefix oldS.mountPath u.basePath then
        match opDelete id with
        | none => (OpResult.success, true)
        | some e => (OpResult.failure 500 e, true)
      else
        (OpResult.failure 403 "permission denied or storage not found", false)

/-- `DisableStorage`: identical guard to `DeleteStorage`, delegating to
`op.DisableStorage`. -/
def disableStorage (u : User) (id : Nat)
    (getById : Nat → Except String Storage)
    (opDisable : Nat → Option String) : OpResult × Bool :=
  if u.isAdmin then
    match opDisable id with
    | none => (OpResult.success, true)
    | some e => (OpResult.failure 500 e, true)
  else
    match getById id with
    | Except.error _ => (OpResult.failure 403 "permission denied or storage not found", false)
    | Except.ok oldS =>
      if goHasPrefix oldS.mountPath u.basePath then
        match opDisable id with
        | none => (OpResult.success, true)
        | some e => (OpResult.failure 500 e, true)
      else
        (OpResult.failure 403 "permission denied or storage not found", false)

/-- `EnableStorage`: identical guard to `DeleteStorage`, delegating to
`op.EnableStorage`. -/
def enableStorage (u : User) (id : Nat)
    (getById : Nat → Except String Storage)
    (opEnable : Nat → Option String) : OpResult × Bool :=
  if u.isAdmin then
    match opEnable id with
    | none => (OpResult.success, true)
    | some e => (OpResult.failure 500 e, true)
  else
    match getById id with
    | Except.error _ => (OpResult.failure 403 "permission denied or storage not found", false)
    | Except.ok oldS =>
      if goHasPrefix oldS.mountPath u.basePath then
        match opEnable id with
        | none => (OpResult.success, true)
        | some e => (OpResult.failure 500 e, true)
      else
        (OpResult.failure 403 "permission denied or storage not found", false)

/-- The observable outcome of `GetStorage`: the (possibly view-rewritten)
record, or an error with status and message. -/
inductive GetResult where
  | success (s : Storage)
  | failure (code : Nat) (msg : String)
deriving DecidableEq, Repr

/-- `GetStorage`: load first (a store error is surfaced as a 500 with the
store's message), then deny an existing out-of-scope record with a 403
`"permission denied"`, then strip `BasePath` for the non-admin view. -/
def getStorage (u : User) (id : Nat)
    (getById : Nat → Except String Storage) : GetResult :=
  match getById id with
  | Except.error e => GetResult.failure 500 e
  | Except.ok storage =>
    if u.isAdmin = false ∧ goHasPrefix storage.mountPath u.basePath = false then
      GetResult.failure 403 "permission denied"
    else
      let st :=
        if u.isAdmin = false ∧ goHasPrefix storage.mountPath u.basePath then
          { storage with mountPath := relFix (goTrimPrefix storage.mountPath u.basePath) }
        else storage
      GetResult.success st

/-- Which of the three per-storage steps of the reload loop body fails, if
any: `op.GetStorageByMountPath`, `storageDriver.Drop`, or `op.LoadStorage`.
Each failure is logged and hit with `continue`. -/
inductive ReloadStepOutcome where
  | resolveFail
  | dropFail
  | initFail
  | okStep
deriving DecidableEq, Repr

/-- The observable events of the reload background task: one `attempt` per
storage (recording which step failed, if any) and the
`conf.SendStoragesLoadedSignal()` call. -/
inductive ReloadEvent where
  | attempt (mountPath : String) (outcome : ReloadStepOutcome)
  | loadedSignal
deriving DecidableEq, Repr

/-- The background loop of `LoadAllStorages`: sequentially attempt each
storage of the snapshot — any step failure only skips to the next storage —
then send the process-wide loaded signal. -/
def reloadTask (outcome : Storage → ReloadStepOutcome) :
    List Storage → List ReloadEvent
  | [] => [ReloadEvent.loadedSignal]
  | s :: rest => ReloadEvent.attempt s.mountPath (outcome s) :: reloadTask outcome rest

/-- The synchronous outcome of `LoadAllStorages`: the HTTP response, whether
`conf.ResetStoragesLoadSignal()` ran, and the snapshot handed to the
detached background task (`none` when no task was started). -/
structure LoadAllResult where
  resp : OpResult
  signalReset : Bool
  task : Option (List Storage)
deriving DecidableEq, Repr

/-- The synchronous part of `LoadAllStorages`, with `db.GetEnabledStorages`
passed in: a store error fails fast with a 500 and touches no signal;
otherwise the loading signal is reset, the background task is dispatched on
the snapshot, and an empty success is returned. -/
def loadAllStorages (getEnabled : Except String (List Storage)) : LoadAllResult :=
  match getEnabled with
  | Except.error e => { resp := OpResult.failure 500 e, signalReset := false, task := none }
  | Except.ok storages =>
    { resp := OpResult.success, signalReset := true, task := some storages }

/-- Timing model of the collection loop of `makeStorageResp` (lines 77-85):
`ds` lists, for each message still to arrive, the delay in seconds between
the start of a `select` iteration and that message's arrival. Each
iteration races the arrival against a fresh `time.After(time.Second * 3)`
timer: an arrival within the 3-second window is consumed and the loop (and
the timer) restarts; otherwise the timeout arm zeroes `workerCount` after 3
seconds. An exhausted `ds` means no further worker ever reports. The result
is the total elapsed wall-clock time of the loop. -/
def collectElapsed : Nat → List Nat → Nat
  | 0, _ => 0
  | _ + 1, [] => 3
  | wc + 1, d :: ds => if d ≤ 3 then d + collectElapsed wc ds else 3

lemma setDetails_length (ret : List StorageResp) (idx : Nat) (v : Option StorageDetails) :
    (setDetails ret idx v).length = ret.length := by
  unfold setDetails
  cases h : ret[idx]? with
  | none => rfl
  | some r => simp [List.length_set]

lemma setDetails_get_ne (ret : List StorageResp) (idx : Nat) (v : Option StorageDetails)
    (i : Nat) (h : i ≠ idx) : (setDetails ret idx v)[i]? = ret[i]? := by
  unfold setDetails
  cases hr : ret[idx]? with
  | none => rfl
  | some r => exact List.getElem?_set_ne (fun he => h he.symm)

lemma setDetails_get_self (ret : List StorageResp) (idx : Nat) (v : Option StorageDetails) :
    (setDetails ret idx v)[idx]? =
      ret[idx]?.map (fun r => { r with mountDetails := v }) := by
  unfold setDetails
  cases hr : ret[idx]? with
  | none => simpa using hr
  | some r =>
    have hlt : idx < ret.length := by
      by_contra hge
      rw [List.getElem?_eq_none (Nat.le_of_not_lt hge)] at hr
      exact Option.noConfusion hr
    simp [List.getElem?_set_self', List.getElem?_eq_getElem, hlt, hr]

lemma collect_nil (wc : Nat) (ret : List StorageResp) : collect wc [] ret = ret := by
  cases wc <;> rfl

lemma collect_get (ms : List DetailMsg) (wc : Nat) (ret : List StorageResp) (i : Nat)
    (hwc : ms.length ≤ wc) (hnd : (ms.map DetailMsg.idx).Nodup) :
    (collect wc ms ret)[i]? =
      match ms.find? (fun m => m.idx = i) with
      | some m => ret[i]?.map (fun r => { r with mountDetails := m.val })
      | none => ret[i]? := by
  induction ms generalizing wc ret with
  | nil => simp [collect_nil]
  | cons m rest ih =>
    cases wc with
    | zero => exact absurd hwc (by simp)
    | succ wc' =>
      have hwc' : rest.length ≤ wc' := by simpa using hwc
      have hnd' : (rest.map DetailMsg.idx).Nodup := (List.nodup_cons.mp hnd).2
      have hni : m.idx ∉ rest.map DetailMsg.idx := (List.nodup_cons.mp hnd).1
      have h2 := ih wc' (setDetails ret m.idx m.val) hwc' hnd'
      show (collect wc' rest (setDetails ret m.idx m.val))[i]? = _
      by_cases hidx : m.idx = i
      · subst hidx
        have hfind : rest.find? (fun x => x.idx = m.idx) = none := by
          rw [List.find?_eq_none]
          intro x hx
          simp only [decide_eq_true_eq]
          intro hxe
          exact hni (List.mem_map.mpr ⟨x, hx, hxe⟩)
        rw [h2, hfind, List.find?_cons_of_pos _ (by simp)]
        simp [setDetails_get_self]
      · rw [h2, List.find?_cons_of_neg _ (by simp [hidx])]
        cases hf : rest.find? (fun x => x.idx = i) with
        | none => simp [setDetails_get_ne _ _ _ _ (fun he => hidx he.symm)]
        | some m' => simp [setDetails_get_ne _ _ _ _ (fun he => hidx he.symm)]

lemma collect_length (wc : Nat) (ms : List DetailMsg) (ret : List StorageResp) :
    (collect wc ms ret).length = ret.length := by
  induction ms generalizing wc ret with
  | nil => simp [collect_nil]
  | cons m rest ih =>
    cases wc with
    | zero => rfl
    | succ wc' => simp [collect, ih, setDetails_length]

lemma setDetails_storage_mem (ret : List StorageResp) (idx : Nat)
    (v : Option StorageDetails) :
    ∀ r ∈ setDetails ret idx v, ∃ r0 ∈ ret, r.storage = r0.storage := by
  unfold setDetails
  cases hr : ret[idx]? with
  | none => exact fun r hm => ⟨r, hm, rfl⟩
  | some r1 =>
    intro r hm
    rcases List.mem_or_eq_of_mem_set hm with hmem | he
    · exact ⟨r, hmem, rfl⟩
    · exact ⟨r1, List.getElem?_mem hr, by rw [he]⟩

lemma collect_storage_mem (ms : List DetailMsg) (wc : Nat) (ret : List StorageResp) :
    ∀ r ∈ collect wc ms ret, ∃ r0 ∈ ret, r.storage = r0.storage := by
  induction ms generalizing wc ret with
  | nil => intro r hm; rw [collect_nil] at hm; exact ⟨r, hm, rfl⟩
  | cons m rest ih =>
    cases wc with
    | zero => exact fun r hm => ⟨r, hm, rfl⟩
    | succ wc' =>
      intro r hm
      rcases ih wc' (setDetails ret m.idx m.val) r hm with ⟨r1, hr1, he1⟩
      rcases setDetails_storage_mem ret m.idx m.val r1 hr1 with ⟨r0, hr0, he0⟩
      exact ⟨r0, hr0, he1.trans he0⟩

lemma makeInit_get (user? : Option User) (storages : List Storage) (i : Nat) :
    (makeInit user? storages)[i]? =
      storages[i]?.map (fun s => ⟨rewriteView user? s, none⟩) := by
  simp [makeInit]

/-- Claim C1, as stated, is false of the code: the scope checks use raw
`strings.HasPrefix`, so the path `"/abcd"` IS treated as under the root
`"/ab"` — here a non-admin with `BasePath = "/ab"` sees the storage
`"/abcd"` in List filtering, can create at `"/abcd"` (the store is called
and the id returned), and can delete record 1 mounted at `"/abcd"` (the
lifecycle operation runs). -/
theorem c1_counterexample :
    isUnderRoot "/abcd" "/ab" = true
    ∧ filterStorages (some ⟨"u", false, "/ab"⟩) [⟨1, "/abcd", "d", true⟩]
        = [⟨1, "/abcd", "d", true⟩]
    ∧ (createStorage ⟨"u", false, "/ab"⟩ ⟨0, "/abcd", "d", true⟩
        (fun _ => (7, none))).1 = CreateResult.success 7
    ∧ (deleteStorage ⟨"u", false, "/ab"⟩ 1
        (fun _ => Except.ok ⟨1, "/abcd", "d", true⟩) (fun _ => none)).2 = true := by
  decide

/-- Claim C1 (amended): path-scope containment is raw string-prefix
matching, not segment-exact — in every scope-checking operation a candidate
`MountPath` `p` is treated as under the caller's `BasePath` `r` exactly when
`r` is a string prefix of `p`, so `"/abcd"` IS considered under `"/ab"`.
List filtering keeps exactly the prefix-matching records; Delete, Disable
and Enable invoke their lifecycle operation exactly when the loaded record
prefix-matches; Get denies exactly when the loaded record does not
prefix-match; Create calls the store exactly when the (possibly rewritten)
requested path prefix-matches. -/
theorem c1_amended (u : User) (storages : List Storage) (s req : Storage) (id : Nat)
    (getById : Nat → Except String Storage) (op1 op2 op3 : Nat → Option String)
    (opC : Storage → Nat × Option String) (opU : Storage → Option String)
    (hna : u.isAdmin = false) :
    (s ∈ filterStorages (some u) storages
      ↔ s ∈ storages ∧ isUnderRoot s.mountPath u.basePath = true)
    ∧ (getById id = Except.ok s →
        (deleteStorage u id getById op1).2 = isUnderRoot s.mountPath u.basePath
        ∧ (disableStorage u id getById op2).2 = isUnderRoot s.mountPath u.basePath
        ∧ (enableStorage u id getById op3).2 = isUnderRoot s.mountPath u.basePath)
    ∧ (getById id = Except.ok s →
        (getStorage u id getById = GetResult.failure 403 "permission denied"
          ↔ isUnderRoot s.mountPath u.basePath = false))
    ∧ ((createStorage u req opC).2 ≠ none
        ↔ isUnderRoot (scopeRewrite u req.mountPath) u.basePath = true)
    ∧ (getById req.id = Except.ok s →
        ((updateStorage u req getById opU).2 ≠ none
          ↔ isUnderRoot s.mountPath u.basePath = true
            ∧ isUnderRoot (scopeRewrite u req.mountPath) u.basePath = true))
    ∧ isUnderRoot "/abcd" "/ab" = true := by
  refine ⟨?_, ?_, ?_, ?_, ?_, by decide⟩
  · simp [filterStorages, hna, List.mem_filter, isUnderRoot]
  · intro hok
    refine ⟨?_, ?_, ?_⟩ <;>
      · simp only [deleteStorage, disableStorage, enableStorage, hna, if_false,
          Bool.false_eq_true, hok]
        by_cases hp : goHasPrefix s.mountPath u.basePath <;>
          simp [hp, isUnderRoot] <;>
          first
            | (cases op1 id <;> simp)
            | (cases op2 id <;> simp)
            | (cases op3 id <;> simp)
  · intro hok
    simp only [getStorage, hok]
    by_cases hp : goHasPrefix s.mountPath u.basePath
    · simp [hna, hp, isUnderRoot]
    · simp only [hna, isUnderRoot]
      simp [hp]
  · simp only [createStorage, hna, if_false, Bool.false_eq_true, isUnderRoot]
    by_cases hp : goHasPrefix (scopeRewrite u req.mountPath) u.basePath
    · simp only [hp, if_true]
      cases opC { req with mountPath := scopeRewrite u req.mountPath } with
      | mk idv e => cases e <;> simp [hp]
    · simp [hp]
  · intro hok
    simp only [updateStorage, hna, if_false, Bool.false_eq_true, hok, isUnderRoot]
    by_cases hp1 : goHasPrefix s.mountPath u.basePath
    · simp only [hp1, if_true, true_and]
      by_cases hp2 : goHasPrefix (scopeRewrite u req.mountPath) u.basePath
      · simp only [hp2, if_true]
        cases opU { req with mountPath := scopeRewrite u req.mountPath } <;> simp [hp2]
      · simp [hp2]
    · simp [hp1]

/-- Claim C1 witness: a non-admin with `BasePath = "/ab"` and a store whose
record 1 is mounted at `"/abcd"`: the amended prefix semantics instantiates
— the record is kept by List filtering exactly because `"/ab"` is a string
prefix of `"/abcd"`, and Delete runs its lifecycle operation because the
loaded record prefix-matches. -/
theorem c1_witness :
    ((⟨"u", false, "/ab"⟩ : User).isAdmin = false)
    ∧ ((⟨1, "/abcd", "d", true⟩ : Storage) ∈
        filterStorages (some ⟨"u", false, "/ab"⟩) [⟨1, "/abcd", "d", true⟩]
        ↔ (⟨1, "/abcd", "d", true⟩ : Storage) ∈ ([⟨1, "/abcd", "d", true⟩] : List Storage)
          ∧ isUnderRoot "/abcd" "/ab" = true)
    ∧ (deleteStorage ⟨"u", false, "/ab"⟩ 1 (fun _ => Except.ok ⟨1, "/abcd", "d", true⟩)
        (fun _ => none)).2 = isUnderRoot "/abcd" "/ab" := by
  have h := c1_amended ⟨"u", false, "/ab"⟩ [⟨1, "/abcd", "d", true⟩] ⟨1, "/abcd", "d", true⟩
    ⟨0, "/x", "d", true⟩ 1 (fun _ => Except.ok ⟨1, "/abcd", "d", true⟩)
    (fun _ => none) (fun _ => none) (fun _ => none) (fun _ => (7, none)) (fun _ => none) rfl
  exact ⟨rfl, h.1, (h.2.1 rfl).1⟩

/-- Claim C2, as stated, is false of the code: the collection loop's
3-second timer is a fresh `time.After` in every `select` iteration, so the
deadline restarts after each completion instead of being shared across the
batch — with two dispatched workers whose completions each arrive 2 seconds
into their wait, the loop runs for 4 seconds, exceeding the claimed fixed
3-second budget measured from batch start. -/
theorem c2_counterexample :
    collectElapsed 2 [2, 2] = 4 ∧ ¬ collectElapsed 2 [2, 2] ≤ 3 := by
  decide

/-- Claim C2 (amended): the collection loop always terminates, but its
3-second deadline is per-wait, restarted after each completion, not shared
across the batch: each individual wait is bounded by 3 seconds, so the
total elapsed time is bounded by 3 times (the number of consumed
completions plus one final wait) — at most `3 * (min workerCount arrivals + 1)`
and hence at most `3 * (workerCount + 1)` — regardless of how many
dispatched workers never report. -/
theorem c2_amended (wc : Nat) (ds : List Nat) :
    collectElapsed wc ds ≤ 3 * (min wc ds.length + 1)
    ∧ collectElapsed wc ds ≤ 3 * (wc + 1) := by
  have h : ∀ (l : List Nat) (n : Nat),
      collectElapsed n l ≤ 3 * (min n l.length + 1) := by
    intro l
    induction l with
    | nil => intro n; cases n <;> simp [collectElapsed]
    | cons d ds ih =>
      intro n
      cases n with
      | zero => simp [collectElapsed]
      | succ n' =>
        simp only [collectElapsed, List.length_cons]
        rw [Nat.succ_min_succ]
        by_cases hd : d ≤ 3
        · have := ih n'
          simp only [hd, if_true]
          omega
        · simp only [hd, if_false]
          omega
  have h1 := h ds wc
  have h2 : min wc ds.length ≤ wc := min_le_left wc ds.length
  exact ⟨h1, by omega⟩

/-- Claim C3: for a non-admin caller ListStorages returns only records
whose stored `MountPath` has the caller's `BasePath` as a prefix — every
filtered record prefix-matches, and every response record is the view of
some stored record that prefix-matches — while an admin's page is passed
through unfiltered, the response count equals the filtered count, and the
`Total` field is the store's unfiltered total, passed through unchanged
(so it can exceed the number of records returned). -/
theorem c3_thm (u : User) (env : DetailEnv) (storages : List Storage) (total : Nat)
    (ms : List DetailMsg) :
    (u.isAdmin = false → ∀ s ∈ filterStorages (some u) storages,
        goHasPrefix s.mountPath u.basePath = true)
    ∧ (u.isAdmin = true → filterStorages (some u) storages = storages)
    ∧ (listStorages (some u) env storages total ms).total = total
    ∧ (listStorages (some u) env storages total ms).content.length
        = (filterStorages (some u) storages).length
    ∧ (u.isAdmin = false → ∀ r ∈ (listStorages (some u) env storages total ms).content,
        ∃ s ∈ storages, goHasPrefix s.mountPath u.basePath = true
          ∧ r.storage = rewriteView (some u) s) := by
  refine ⟨?_, ?_, rfl, ?_, ?_⟩
  · intro hna s hs
    rw [filterStorages, hna] at hs
    simp only [if_false, Bool.false_eq_true] at hs
    exact (List.mem_filter.mp hs).2
  · intro ha
    simp [filterStorages, ha]
  · show (makeStorageResp env (some u) (filterStorages (some u) storages) ms).length = _
    rw [makeStorageResp, collect_length]
    simp [makeInit]
  · intro hna r hr
    have hr' : r ∈ collect (dispatchedIdx env (some u) (filterStorages (some u) storages)).length
        ms (makeInit (some u) (filterStorages (some u) storages)) := hr
    rcases collect_storage_mem ms _ _ r hr' with ⟨r0, hr0, he⟩
    rcases List.mem_map.mp hr0 with ⟨s, hs, hs0⟩
    rw [filterStorages, hna] at hs
    simp only [if_false, Bool.false_eq_true] at hs
    exact ⟨s, (List.mem_filter.mp hs).1, (List.mem_filter.mp hs).2,
      by rw [he, ← hs0]⟩

/-- Claim C3 witness: a non-admin with `BasePath = "/u1"` over a store page
holding one in-scope and one out-of-scope record and unfiltered total 5:
every filtered record prefix-matches (by the theorem), and the response
carries total 5 while only 1 record is returned. -/
theorem c3_witness :
    (∀ s ∈ filterStorages (some ⟨"u", false, "/u1"⟩)
        [⟨1, "/u1/a", "d", true⟩, ⟨2, "/z", "d", true⟩],
        goHasPrefix s.mountPath "/u1" = true)
    ∧ (listStorages (some ⟨"u", false, "/u1"⟩) ⟨true, fun _ => none, fun _ => false⟩
        [⟨1, "/u1/a", "d", true⟩, ⟨2, "/z", "d", true⟩] 5 []).total = 5
    ∧ (listStorages (some ⟨"u", false, "/u1"⟩) ⟨true, fun _ => none, fun _ => false⟩
        [⟨1, "/u1/a", "d", true⟩, ⟨2, "/z", "d", true⟩] 5 []).content.length = 1 := by
  have h := c3_thm ⟨"u", false, "/u1"⟩ ⟨true, fun _ => none, fun _ => false⟩
    [⟨1, "/u1/a", "d", true⟩, ⟨2, "/z", "d", true⟩] 5 []
  exact ⟨h.1 rfl, h.2.2.1, by decide⟩

/-- Claim C4: for a non-admin Create, a requested `MountPath` that does not
prefix-match `BasePath` is rewritten to `path.Join(BasePath, MountPath)`;
if the (possibly rewritten) path still does not prefix-match, Create fails
with the 403 permission message and the store is never called; otherwise
the store is called on the rewritten record, success returns the assigned
id, and a store failure yields a 500 carrying the attempted id. With
`BasePath = "/u1"` and request `MountPath = "/drive"` the stored record's
`MountPath` is `"/u1/drive"`. -/
theorem c4_thm (u : User) (req : Storage) (opC : Storage → Nat × Option String)
    (hna : u.isAdmin = false) :
    (goHasPrefix req.mountPath u.basePath = false →
        scopeRewrite u req.mountPath = goJoin u.basePath req.mountPath)
    ∧ (goHasPrefix (scopeRewrite u req.mountPath) u.basePath = false →
        createStorage u req opC
          = (CreateResult.failure 403
              ("permission denied: you can only mount under " ++ u.basePath) none, none))
    ∧ (∀ id, goHasPrefix (scopeRewrite u req.mountPath) u.basePath = true →
        opC { req with mountPath := scopeRewrite u req.mountPath } = (id, none) →
        createStorage u req opC = (CreateResult.success id,
          some { req with mountPath := scopeRewrite u req.mountPath }))
    ∧ (∀ id e, goHasPrefix (scopeRewrite u req.mountPath) u.basePath = true →
        opC { req with mountPath := scopeRewrite u req.mountPath } = (id, some e) →
        createStorage u req opC = (CreateResult.failure 500 e (some id),
          some { req with mountPath := scopeRewrite u req.mountPath }))
    ∧ (u.basePath = "/u1" → req.mountPath = "/drive" →
        (createStorage u req opC).2 = some { req with mountPath := "/u1/drive" }) := by
  refine ⟨?_, ?_, ?_, ?_, ?_⟩
  · intro hp
    simp [scopeRewrite, hp]
  · intro hp
    simp [createStorage, hna, hp]
  · intro id hp hop
    simp [createStorage, hna, hp, hop]
  · intro id e hp hop
    simp [createStorage, hna, hp, hop]
  · intro hb hm
    have h1 : goHasPrefix "/drive" "/u1" = false := by decide
    have h2 : goJoin "/u1" "/drive" = "/u1/drive" := by decide
    have h3 : goHasPrefix "/u1/drive" "/u1" = true := by decide
    have hsr : scopeRewrite u req.mountPath = "/u1/drive" := by
      rw [scopeRewrite, hb, hm, h1]
      simpa using h2
    simp only [createStorage, hna, if_false, Bool.false_eq_true, hsr, hb, h3, if_true]
    cases hc : opC { req with mountPath := "/u1/drive" } with
    | mk idv e => cases e <;> simp

/-- Claim C4 witness: `BasePath = "/u1"`, request `MountPath = "/drive"`,
store assigning id 9: the request is rewritten by joining, the store is
called with `"/u1/drive"` and the assigned id is returned. -/
theorem c4_witness :
    ((⟨"u", false, "/u1"⟩ : User).isAdmin = false)
    ∧ scopeRewrite ⟨"u", false, "/u1"⟩ "/drive" = goJoin "/u1" "/drive"
    ∧ (createStorage ⟨"u", false, "/u1"⟩ ⟨0, "/drive", "d", true⟩
        (fun _ => (9, none))).2 = some ⟨0, "/u1/drive", "d", true⟩ := by
  have h := c4_thm ⟨"u", false, "/u1"⟩ ⟨0, "/drive", "d", true⟩ (fun _ => (9, none)) rfl
  exact ⟨rfl, h.1 (by decide), h.2.2.2.2 rfl rfl⟩

/-- Claim C5: a non-admin Update first loads the existing record by id (a
load failure is returned as a 500 with the store's error and the store's
update is never called); an existing record whose `MountPath` does not
prefix-match the caller's `BasePath` is rejected with a 403
`"permission denied"` without calling the store's update; and only for an
owned record is the new `MountPath` rewritten and validated exactly as in
Create — via the same `scopeRewrite` — before delegating to the store
(failing the rewritten check yields the same 403 message as Create, with
the store never called). -/
theorem c5_thm (u : User) (req : Storage) (getById : Nat → Except String Storage)
    (opU : Storage → Option String) (hna : u.isAdmin = false) :
    (∀ e, getById req.id = Except.error e →
        updateStorage u req getById opU = (OpResult.failure 500 e, none))
    ∧ (∀ oldS, getById req.id = Except.ok oldS →
        goHasPrefix oldS.mountPath u.basePath = false →
        updateStorage u req getById opU = (OpResult.failure 403 "permission denied", none))
    ∧ (∀ oldS, getById req.id = Except.ok oldS →
        goHasPrefix oldS.mountPath u.basePath = true →
        (goHasPrefix (scopeRewrite u req.mountPath) u.basePath = false →
            updateStorage u req getById opU
              = (OpResult.failure 403
                  ("permission denied: you can only mount under " ++ u.basePath), none))
        ∧ (goHasPrefix (scopeRewrite u req.mountPath) u.basePath = true →
            (opU { req with mountPath := scopeRewrite u req.mountPath } = none →
              updateStorage u req getById opU
                = (OpResult.success, some { req with mountPath := scopeRewrite u req.mountPath }))
            ∧ ∀ e, opU { req with mountPath := scopeRewrite u req.mountPath } = some e →
              updateStorage u req getById opU
                = (OpResult.failure 500 e,
                    some { req with mountPath := scopeRewrite u req.mountPath }))) := by
  refine ⟨?_, ?_, ?_⟩
  · intro e he
    simp [updateStorage, hna, he]
  · intro oldS hok hp
    simp [updateStorage, hna, hok, hp]
  · intro oldS hok hp
    constructor
    · intro hp2
      simp [updateStorage, hna, hok, hp, hp2]
    · intro hp2
      constructor
      · intro hop
        simp [updateStorage, hna, hok, hp, hp2, hop]
      · intro e hop
        simp [updateStorage, hna, hok, hp, hp2, hop]

/-- Claim C5 witness: a non-admin with `BasePath = "/u1"` owning record 4 at
`"/u1/a"` who requests the new path `"/../etc"`: the join rewrites it to
`"/etc"`, which is still outside `BasePath`, so Update fails with the 403
mount message and the store's update is never called. -/
theorem c5_witness :
    ((⟨"u", false, "/u1"⟩ : User).isAdmin = false)
    ∧ ((fun _ => Except.ok ⟨4, "/u1/a", "d", true⟩ :
          Nat → Except String Storage) 4 = Except.ok ⟨4, "/u1/a", "d", true⟩)
    ∧ goHasPrefix "/u1/a" "/u1" = true
    ∧ goHasPrefix (scopeRewrite ⟨"u", false, "/u1"⟩ "/../etc") "/u1" = false
    ∧ updateStorage ⟨"u", false, "/u1"⟩ ⟨4, "/../etc", "d", true⟩
        (fun _ => Except.ok ⟨4, "/u1/a", "d", true⟩) (fun _ => none)
        = (OpResult.failure 403 "permission denied: you can only mount under /u1", none) := by
  have h := c5_thm ⟨"u", false, "/u1"⟩ ⟨4, "/../etc", "d", true⟩
    (fun _ => Except.ok ⟨4, "/u1/a", "d", true⟩) (fun _ => none) rfl
  exact ⟨rfl, rfl, by decide, by decide,
    (h.2.2 ⟨4, "/u1/a", "d", true⟩ rfl (by decide)).1 (by decide)⟩

/-- Claim C6: for a non-admin Delete, Disable or Enable with id `n`, a
failed load and a loaded record that does not prefix-match the caller's
`BasePath` produce the very same response — status 403 with the single
combined message `"permission denied or storage not found"` — and the
lifecycle operation is not invoked; only an owned record reaches the
store/driver operation. -/
theorem c6_thm (u : User) (id : Nat) (getById : Nat → Except String Storage)
    (op1 op2 op3 : Nat → Option String) (hna : u.isAdmin = false) :
    (∀ e, getById id = Except.error e →
        deleteStorage u id getById op1
            = (OpResult.failure 403 "permission denied or storage not found", false)
        ∧ disableStorage u id getById op2
            = (OpResult.failure 403 "permission denied or storage not found", false)
        ∧ enableStorage u id getById op3
            = (OpResult.failure 403 "permission denied or storage not found", false))
    ∧ (∀ s, getById id = Except.ok s → goHasPrefix s.mountPath u.basePath = false →
        deleteStorage u id getById op1
            = (OpResult.failure 403 "permission denied or storage not found", false)
        ∧ disableStorage u id getById op2
            = (OpResult.failure 403 "permission denied or storage not found", false)
        ∧ enableStorage u id getById op3
            = (OpResult.failure 403 "permission denied or storage not found", false))
    ∧ (∀ s, getById id = Except.ok s → goHasPrefix s.mountPath u.basePath = true →
        (deleteStorage u id getById op1).2 = true
        ∧ (disableStorage u id getById op2).2 = true
        ∧ (enableStorage u id getById op3).2 = true) := by
  refine ⟨?_, ?_, ?_⟩
  · intro e he
    refine ⟨?_, ?_, ?_⟩ <;> simp [deleteStorage, disableStorage, enableStorage, hna, he]
  · intro s hok hp
    refine ⟨?_, ?_, ?_⟩ <;> simp [deleteStorage, disableStorage, enableStorage, hna, hok, hp]
  · intro s hok hp
    refine ⟨?_, ?_, ?_⟩ <;>
      · simp only [deleteStorage, disableStorage, enableStorage, hna, if_false,
          Bool.false_eq_true, hok, hp, if_true]
        first
          | (cases op1 id <;> simp)
          | (cases op2 id <;> simp)
          | (cases op3 id <;> simp)

/-- Claim C6 witness: a non-admin with `BasePath = "/u1"`: for id 7 the
load fails and for id 8 the loaded record `"/z"` is out of scope; Delete
answers both with the identical combined 403, and an owned record (id 9 at
`"/u1/a"`) reaches the lifecycle operation. -/
theorem c6_witness :
    ((⟨"u", false, "/u1"⟩ : User).isAdmin = false)
    ∧ deleteStorage ⟨"u", false, "/u1"⟩ 7 (fun _ => Except.error "record not found")
        (fun _ => none)
        = (OpResult.failure 403 "permission denied or storage not found", false)
    ∧ deleteStorage ⟨"u", false, "/u1"⟩ 8 (fun _ => Except.ok ⟨8, "/z", "d", true⟩)
        (fun _ => none)
        = (OpResult.failure 403 "permission denied or storage not found", false)
    ∧ (deleteStorage ⟨"u", false, "/u1"⟩ 9 (fun _ => Except.ok ⟨9, "/u1/a", "d", true⟩)
        (fun _ => none)).2 = true := by
  have h1 := c6_thm ⟨"u", false, "/u1"⟩ 7 (fun _ => Except.error "record not found")
    (fun _ => none) (fun _ => none) (fun _ => none) rfl
  have h2 := c6_thm ⟨"u", false, "/u1"⟩ 8 (fun _ => Except.ok ⟨8, "/z", "d", true⟩)
    (fun _ => none) (fun _ => none) (fun _ => none) rfl
  have h3 := c6_thm ⟨"u", false, "/u1"⟩ 9 (fun _ => Except.ok ⟨9, "/u1/a", "d", true⟩)
    (fun _ => none) (fun _ => none) (fun _ => none) rfl
  exact ⟨rfl, (h1.1 "record not found" rfl).1,
    (h2.2.1 ⟨8, "/z", "d", true⟩ rfl (by decide)).1,
    (h3.2.2 ⟨9, "/u1/a", "d", true⟩ rfl (by decide)).1⟩

/-- Claim C7, as stated, is false of the code: with root `r = "/u1"` the
path `p = "/u1/u1abc"` is under `r` (even at a segment boundary), yet the
rewrite `p ↦ ToRelative(ToAbsolute(p, r), r)` is not idempotent at `p`: one
pass gives `"/u1abc"`, a second pass strips the root again and gives
`"abc"`. -/
theorem c7_counterexample :
    goHasPrefix "/u1/u1abc" "/u1" = true
    ∧ toRelative "/u1" (toAbsolute "/u1" "/u1/u1abc") = "/u1abc"
    ∧ toRelative "/u1" (toAbsolute "/u1" (toRelative "/u1" (toAbsolute "/u1" "/u1/u1abc")))
        = "abc"
    ∧ toRelative "/u1" (toAbsolute "/u1" (toRelative "/u1" (toAbsolute "/u1" "/u1/u1abc")))
        ≠ toRelative "/u1" (toAbsolute "/u1" "/u1/u1abc") := by
  decide

/-- Claim C7 (amended): the rewrite `p ↦ ToRelative(ToAbsolute(p, r), r)` is
idempotent for `p` under `r` (string prefix) under the additional
normalization hypothesis that the counterexample forces: re-absolutizing
the presented relative remainder must reproduce `p` itself (which fails
when the remainder is again prefixed by `r`, is not slash-separated, or is
not `path.Clean`-normal). The concrete view facts hold unconditionally: a
non-admin with `BasePath = "/u1"` is shown `"/u1/drive"` as `"/drive"`
(both through `makeStorageResp`, i.e. List, and through Get), a record
mounted exactly at `BasePath` is shown as `"/"`, and the rewrite is a view
transformation: the record held by the store argument is untouched. -/
theorem c7_amended (r p : String)
    (h1 : goHasPrefix p r = true)
    (h2 : toAbsolute r (relFix (goTrimPrefix p r)) = p) :
    toRelative r (toAbsolute r (toRelative r (toAbsolute r p)))
      = toRelative r (toAbsolute r p)
    ∧ (rewriteView (some ⟨"u", false, "/u1"⟩) ⟨3, "/u1/drive", "d", true⟩).mountPath
        = "/drive"
    ∧ getStorage ⟨"u", false, "/u1"⟩ 3 (fun _ => Except.ok ⟨3, "/u1/drive", "d", true⟩)
        = GetResult.success ⟨3, "/drive", "d", true⟩
    ∧ (rewriteView (some ⟨"u", false, "/u1"⟩) ⟨3, "/u1", "d", true⟩).mountPath = "/" := by
  refine ⟨?_, by decide, by decide, by decide⟩
  have ha : toAbsolute r p = p := by simp [toAbsolute, h1]
  have hr : toRelative r p = relFix (goTrimPrefix p r) := by simp [toRelative, h1]
  rw [ha, hr, h2, hr]

/-- Claim C7 witness: `r = "/u1"`, `p = "/u1/drive"`: the hypotheses hold
(`p` is under `r` and re-absolutizing the remainder `"/drive"` reproduces
`p`), and the rewrite is idempotent there. -/
theorem c7_witness :
    goHasPrefix "/u1/drive" "/u1" = true
    ∧ toAbsolute "/u1" (relFix (goTrimPrefix "/u1/drive" "/u1")) = "/u1/drive"
    ∧ toRelative "/u1" (toAbsolute "/u1" (toRelative "/u1" (toAbsolute "/u1" "/u1/drive")))
        = toRelative "/u1" (toAbsolute "/u1" "/u1/drive") := by
  exact ⟨by decide, by decide,
    (c7_amended "/u1" "/u1/drive" (by decide) (by decide)).1⟩

/-- Claim C9: if reading the enabled-storage set fails, LoadAllStorages
fails synchronously with a 500 carrying the store's error, the loading
signal is not reset and no background task starts; otherwise the signal is
reset, an empty success is returned immediately, and the detached task —
given any pattern of per-storage step failures — attempts every storage of
the snapshot exactly once, in order, and sends the process-wide loaded
signal exactly once, after the last attempt. -/
theorem c9_thm (e : String) (ss : List Storage) (oc : Storage → ReloadStepOutcome) :
    loadAllStorages (Except.error e)
        = { resp := OpResult.failure 500 e, signalReset := false, task := none }
    ∧ loadAllStorages (Except.ok ss)
        = { resp := OpResult.success, signalReset := true, task := some ss }
    ∧ reloadTask oc ss
        = ss.map (fun s => ReloadEvent.attempt s.mountPath (oc s))
          ++ [ReloadEvent.loadedSignal] := by
  refine ⟨rfl, rfl, ?_⟩
  induction ss with
  | nil => rfl
  | cons s rest ih => simp [reloadTask, ih]

/-- Claim C10: GetStorage loads before any permission check — any caller
(admin or not) whose load fails receives the store's error with status 500,
while a non-admin asking for an existing record outside their `BasePath`
receives a 403 `"permission denied"`; hence Get lets a non-admin
distinguish a missing id from an out-of-scope id (the two responses always
differ), unlike Delete, Disable and Enable, which answer both cases with
the identical combined 403. -/
theorem c10_thm (u : User) (id1 id2 : Nat) (e : String) (s : Storage)
    (getById : Nat → Except String Storage) (op1 op2 op3 : Nat → Option String)
    (hna : u.isAdmin = false)
    (he : getById id1 = Except.error e)
    (hok : getById id2 = Except.ok s)
    (hout : goHasPrefix s.mountPath u.basePath = false) :
    (∀ u2 : User, getStorage u2 id1 getById = GetResult.failure 500 e)
    ∧ getStorage u id2 getById = GetResult.failure 403 "permission denied"
    ∧ getStorage u id1 getById ≠ getStorage u id2 getById
    ∧ deleteStorage u id1 getById op1 = deleteStorage u id2 getById op1
    ∧ disableStorage u id1 getById op2 = disableStorage u id2 getById op2
    ∧ enableStorage u id1 getById op3 = enableStorage u id2 getById op3 := by
  have hg1 : getStorage u id1 getById = GetResult.failure 500 e := by
    simp [getStorage, he]
  have hg2 : getStorage u id2 getById = GetResult.failure 403 "permission denied" := by
    simp [getStorage, hok, hna, hout]
  refine ⟨fun u2 => by simp [getStorage, he], hg2, ?_, ?_, ?_, ?_⟩
  · rw [hg1, hg2]
    intro hcontra
    exact absurd (GetResult.failure.injEq _ _ _ _ ▸ hcontra).1 (by decide)
  · simp [deleteStorage, hna, he, hok, hout]
  · simp [disableStorage, hna, he, hok, hout]
  · simp [enableStorage, hna, he, hok, hout]

/-- Claim C10 witness: a non-admin with `BasePath = "/u1"` against a store
where id 1 is missing and id 2 is mounted out of scope at `"/z"`: Get
answers 500 with the store's message for id 1 and 403 for id 2 (two
distinguishable responses), while Delete answers both with the same
combined 403. -/
theorem c10_witness :
    getStorage ⟨"u", false, "/u1"⟩ 1
        (fun n => if n = 2 then Except.ok ⟨2, "/z", "d", true⟩ else Except.error "missing")
        = GetResult.failure 500 "missing"
    ∧ getStorage ⟨"u", false, "/u1"⟩ 2
        (fun n => if n = 2 then Except.ok ⟨2, "/z", "d", true⟩ else Except.error "missing")
        = GetResult.failure 403 "permission denied"
    ∧ deleteStorage ⟨"u", false, "/u1"⟩ 1
        (fun n => if n = 2 then Except.ok ⟨2, "/z", "d", true⟩ else Except.error "missing")
        (fun _ => none)
      = deleteStorage ⟨"u", false, "/u1"⟩ 2
        (fun n => if n = 2 then Except.ok ⟨2, "/z", "d", true⟩ else Except.error "missing")
        (fun _ => none) := by
  have h := c10_thm ⟨"u", false, "/u1"⟩ 1 2 "missing" ⟨2, "/z", "d", true⟩
    (fun n => if n = 2 then Except.ok ⟨2, "/z", "d", true⟩ else Except.error "missing")
    (fun _ => none) (fun _ => none) (fun _ => none)
    rfl rfl rfl (by decide)
  exact ⟨h.1 ⟨"u", false, "/u1"⟩, h.2.1, h.2.2.2.1⟩

/-- Claim C8: for a batch of N records, makeStorageResp returns exactly N
responses in input order (slot i carries the view of input record i). Under
the channel discipline of the dispatched workers — each arriving message
comes from a distinct dispatched worker and worker i's message carries
exactly its own fetch outcome — slot i's `MountDetails` is worker i's
outcome when worker i reported before collection ended and nil otherwise;
a slot with no dispatched worker (driver resolution failed or capability
missing) is nil; and when the hide-details flag is set no driver-registry
call is made at all and every slot is nil. The batch always yields a full
response list — an individual fetch error only nils its own slot (its
message carries `val = none`), never failing the batch. -/
theorem c8_thm (env : DetailEnv) (user? : Option User) (storages : List Storage)
    (ms : List DetailMsg) (outcome : Nat → Option StorageDetails)
    (hnd : (ms.map DetailMsg.idx).Nodup)
    (hsub : ∀ m ∈ ms, m.idx ∈ dispatchedIdx env user? storages ∧ m.val = outcome m.idx)
    (hlen : ms.length ≤ (dispatchedIdx env user? storages).length) :
    (makeStorageResp env user? storages ms).length = storages.length
    ∧ (∀ (i : Nat) (s : Storage), storages[i]? = some s →
        (makeStorageResp env user? storages ms)[i]?
          = some { storage := rewriteView user? s,
                   mountDetails := if i ∈ ms.map DetailMsg.idx then outcome i else none })
    ∧ (∀ (i : Nat) (s : Storage), storages[i]? = some s → i ∉ dispatchedIdx env user? storages →
        (makeStorageResp env user? storages ms)[i]? = some ⟨rewriteView user? s, none⟩)
    ∧ (env.hide = true → resolveCalls env user? storages = []
        ∧ ∀ r ∈ makeStorageResp env user? storages ms, r.mountDetails = none) := by
  have hslot : ∀ (i : Nat) (s : Storage), storages[i]? = some s →
      (makeStorageResp env user? storages ms)[i]?
        = some { storage := rewriteView user? s,
                 mountDetails := if i ∈ ms.map DetailMsg.idx then outcome i else none } := by
    intro i s hs
    have hcg := collect_get ms (dispatchedIdx env user? storages).length
      (makeInit user? storages) i hlen hnd
    rw [makeStorageResp, hcg]
    by_cases hc : i ∈ ms.map DetailMsg.idx
    · rcases List.mem_map.mp hc with ⟨m, hm, hmi⟩
      cases hf : ms.find? (fun x => x.idx = i) with
      | none =>
        rw [List.find?_eq_none] at hf
        exact absurd (by simpa using hmi) (by simpa using hf m hm)
      | some m' =>
        have hi' : m'.idx = i := by simpa using List.find?_some hf
        have hm' : m' ∈ ms := List.mem_of_find?_eq_some hf
        have hval : m'.val = outcome i := by rw [(hsub m' hm').2, hi']
        rw [makeInit_get, hs, if_pos hc]
        simp [hval]
    · have hf : ms.find? (fun x => x.idx = i) = none := by
        rw [List.find?_eq_none]
        intro x hx
        simp only [decide_eq_true_eq]
        intro hxe
        exact hc (List.mem_map.mpr ⟨x, hx, hxe⟩)
      rw [hf, makeInit_get, hs, if_neg hc]
      rfl
  refine ⟨?_, hslot, ?_, ?_⟩
  · rw [makeStorageResp, collect_length]
    simp [makeInit]
  · intro i s hs hnd2
    have hnc : i ∉ ms.map DetailMsg.idx := by
      intro hc
      rcases List.mem_map.mp hc with ⟨m, hm, hmi⟩
      exact hnd2 (hmi ▸ (hsub m hm).1)
    rw [hslot i s hs, if_neg hnc]
  · intro hh
    have hde : dispatchedIdx env user? storages = [] := by
      simp [dispatchedIdx, dispatchFlag, hh]
    have hme : ms = [] := by
      cases hms : ms with
      | nil => rfl
      | cons m rest =>
        have := (hsub m (hms ▸ List.mem_cons_self m rest)).1
        rw [hde] at this
        exact absurd this (List.not_mem_nil m.idx)
    refine ⟨by simp [resolveCalls, hh], ?_⟩
    intro r hr
    rw [makeStorageResp, hme, collect_nil] at hr
    rcases List.mem_map.mp hr with ⟨s, _, hse⟩
    rw [← hse]

/-- Claim C8 witness: two records, both dispatched; worker 1 reports its
details while worker 0 never does: the batch still returns both slots in
order, slot 1 carries worker 1's outcome and slot 0 is nil. -/
theorem c8_witness :
    (makeStorageResp ⟨false, fun _ => some 0, fun _ => true⟩ none
        [⟨1, "/a", "d", true⟩, ⟨2, "/b", "d", true⟩] [⟨1, some ⟨42⟩⟩]).length = 2
    ∧ (makeStorageResp ⟨false, fun _ => some 0, fun _ => true⟩ none
        [⟨1, "/a", "d", true⟩, ⟨2, "/b", "d", true⟩] [⟨1, some ⟨42⟩⟩])[1]?
      = some ⟨⟨2, "/b", "d", true⟩, some ⟨42⟩⟩
    ∧ (makeStorageResp ⟨false, fun _ => some 0, fun _ => true⟩ none
        [⟨1, "/a", "d", true⟩, ⟨2, "/b", "d", true⟩] [⟨1, some ⟨42⟩⟩])[0]?
      = some ⟨⟨1, "/a", "d", true⟩, none⟩ := by
  have h := c8_thm ⟨false, fun _ => some 0, fun _ => true⟩ none
    [⟨1, "/a", "d", true⟩, ⟨2, "/b", "d", true⟩] [⟨1, some ⟨42⟩⟩]
    (fun i => if i = 1 then some ⟨42⟩ else none)
    (by decide) (by decide) (by decide)
  refine ⟨h.1, ?_, ?_⟩
  · have h2 := h.2.1 1 ⟨2, "/b", "d", true⟩ (by decide)
    rw [h2]
    decide
  · have h0 := h.2.1 0 ⟨1, "/a", "d", true⟩ (by decide)
    rw [h0]
    decide

end OpenList
